import Mathlib

/-!
Verification of the translation engine in `src/lib/effect-schema-class.ts`
(surql-gen). The engine is a pure function `generateEffectSchemas` mapping a
list of SurrealDB table definitions to generated Effect Schema source text.

The embedding below models JavaScript strings as Lean `String` (a wrapper
around `List Char`); the few regex-based `String.prototype.replace` calls of
the source (all on one- or two-character literal patterns) are modelled by
structurally recursive char-list functions with the same left-to-right,
non-overlapping replacement semantics.  `toLowerCase`/`toUpperCase` are
modelled by the ASCII case maps (table names and type tags are ASCII
identifiers).  JavaScript truthiness of an optional string property
(`undefined` and `""` are falsy) is modelled by `jsTruthy`.
-/

namespace SurqlGen

/-- The single-quote character, spelled via its code point. -/
def qc : Char := Char.ofNat 39

/-- The backslash character, spelled via its code point. -/
def bc : Char := Char.ofNat 92

/-- `reference?: { table: string }` of a field definition (schema.ts). -/
structure Reference where
  table : String
deriving DecidableEq

/-- `FieldDefinition` from schema.ts: name, type tag, optionality and the
optional metadata consumed by the generator. -/
structure FieldDefinition where
  name : String
  type : String
  optional : Bool
  description : Option String := none
  defaultValue : Option String := none
  reference : Option Reference := none
deriving DecidableEq

/-- `TableDefinition` from schema.ts: name, optional description, fields. -/
structure TableDefinition where
  name : String
  description : Option String := none
  fields : List FieldDefinition
deriving DecidableEq

/-- JavaScript truthiness of an optional string property: `undefined` and the
empty string are falsy. -/
def jsTruthy : Option String → Bool
  | none => false
  | some s => decide (s ≠ "")

/-- Whether `pat` occurs as a contiguous substring of `s` (char-list level);
models `String.prototype.includes`. -/
def hasInfixB (pat : List Char) : List Char → Bool
  | [] => pat.isEmpty
  | c :: rest => pat.isPrefixOf (c :: rest) || hasInfixB pat rest

/-- Models `s.includes(pat)`. -/
def jsIncludes (s pat : String) : Bool := hasInfixB pat.data s.data

/-- Models `s.toLowerCase()` (ASCII case map). -/
def jsToLowerCase (s : String) : String := String.mk (s.data.map Char.toLower)

/-- Models `s.startsWith(pat)`. -/
def jsStartsWith (s pat : String) : Bool := pat.data.isPrefixOf s.data

/-- Models the regex test `/^-?\d+(\.\d+)?$/.test(s)`. -/
def isNumericLiteral (s : String) : Bool :=
  let cs := match s.data with
    | c :: rest => if c == '-' then rest else c :: rest
    | [] => []
  let ds := cs.takeWhile Char.isDigit
  let rest := cs.dropWhile Char.isDigit
  !ds.isEmpty &&
    (match rest with
     | [] => true
     | c :: fs => c == '.' && !fs.isEmpty && fs.all Char.isDigit)

/-- Left-to-right, non-overlapping replacement of the two-character pattern
backslash-quote by a single quote; models the first global regex replace of
the description escaping (source line 79). -/
def replaceBsQ : List Char → List Char
  | [] => []
  | [c] => [c]
  | c1 :: c2 :: rest =>
    if c1 = bc ∧ c2 = qc then qc :: replaceBsQ rest
    else c1 :: replaceBsQ (c2 :: rest)

/-- Replacement of every single quote by backslash-quote; models the second
global regex replace of the description escaping (source line 80). -/
def escQ : List Char → List Char
  | [] => []
  | c :: rest => if c = qc then bc :: qc :: escQ rest else c :: escQ rest

/-- The description-escaping pipeline of the generator (lines 78-80 of the
source): first un-escape already-escaped single quotes, then escape every
single quote. -/
def escapeDescription (d : String) : String := String.mk (escQ (replaceBsQ d.data))

/-- The table-description escaping (line 181 of the source): escape every
single quote, with no un-escaping pass. -/
def escapeQuotesOnly (d : String) : String := String.mk (escQ d.data)

/-- Parsing an emitted single-quoted literal body back to a string:
un-escape every escaped single quote (the round-trip reading used by the
specification). -/
def parseSingleQuoted (s : String) : String := String.mk (replaceBsQ s.data)

/-- String-literal lexing check: scanning left to right, a backslash consumes
the following character; the scan never meets a bare single quote. -/
def noUnescapedQuote : List Char → Bool
  | [] => true
  | [c] => c = bc || c != qc
  | c :: c2 :: rest =>
    if c = bc then noUnescapedQuote rest
    else c != qc && noUnescapedQuote (c2 :: rest)

/-- `formatClassName` (source lines 24-26): capitalize the first character,
leave the rest unchanged. -/
def formatClassName (tableName : String) : String :=
  match tableName.data with
  | [] => ""
  | c :: cs => String.mk (c.toUpper :: cs)

/-- The `imports` preamble template of `generateEffectSchemas` (source lines
33-50): the framework import, the RecordId helper type and the `recordId`
constructor helper, ending with a newline. -/
def importsStr : String :=
  "import \x7b Schema \x7d from \"effect\";\n\n// Type for representing a RecordId in Effect Schema\ntype RecordId<T extends string = string> = string & \x7b\n  readonly RecordId: unique symbol;\n  readonly Table: T;\n\x7d;\n\n/**\n * Create a RecordId schema for a specific table\n */\nfunction recordId<T extends string>(tableName: T): Schema.Schema<RecordId<T>> \x7b\n  return Schema.String.pipe(\n    Schema.pattern(/^[a-zA-Z0-9_-]+:[a-zA-Z0-9_-]+$/),\n    Schema.brand(`RecordId<$\x7btableName\x7d>`),\n  ) as unknown as Schema.Schema<RecordId<T>>;\n\x7d\n"

/-- The no-reference fallback regex literal of the `record` case
(source line 157). -/
def recordNoRefPattern : String := "/^[a-zA-Z0-9_-]+:⟨\\d+⟩$/"

/-- The no-reference fallback regex literal of the `array_record` case
(source line 142), also the pattern of the preamble helper. -/
def arrayRecordNoRefPattern : String := "/^[a-zA-Z0-9_-]+:[a-zA-Z0-9_-]+$/"

/-- The description entries pushed on the `annotations` array (source lines
77-82): present iff `field.description` is truthy. -/
def descEntries (field : FieldDefinition) : List String :=
  if jsTruthy field.description then
    ["description: \x27" ++ escapeDescription (field.description.getD "") ++ "\x27"]
  else []

/-- The default-value entries pushed on the `annotations` array (source lines
85-113): present iff `field.defaultValue` is truthy; `::`-containing values
are treated as native defaults (a `surrealDefault` entry for datetime fields,
a quoted `default` entry otherwise); other values receive a quoted `default`
entry unless already quoted, a boolean literal, a signed-decimal numeral, or
an array/object literal. -/
def defaultEntries (field : FieldDefinition) : List String :=
  if jsTruthy field.defaultValue then
    let v := field.defaultValue.getD ""
    if jsIncludes v "::" then
      if jsToLowerCase field.type = "datetime" then
        ["surrealDefault: \x27" ++ v ++ "\x27"]
      else
        ["default: \x27" ++ v ++ "\x27"]
    else
      if jsStartsWith v "\x27" = false ∧ jsStartsWith v "\"" = false ∧
          v ≠ "true" ∧ v ≠ "false" ∧ isNumericLiteral v = false ∧
          jsStartsWith v "[" = false ∧ jsStartsWith v "\x7b" = false then
        ["default: \x27" ++ v ++ "\x27"]
      else
        ["default: " ++ v]
  else []

/-- The full `annotations` array of a field: description entries first (pushed
at lines 77-82), then default entries (pushed at lines 85-113). -/
def annotationsOf (field : FieldDefinition) : List String :=
  descEntries field ++ defaultEntries field

/-- `annotationsStr` (source line 116): the entries joined with a comma and
wrapped in an `.annotations(...)` call, or empty when there are none. -/
def annotationsStr (field : FieldDefinition) : String :=
  if (annotationsOf field).length > 0 then
    ".annotations(\x7b " ++ String.intercalate ", " (annotationsOf field) ++ " \x7d)"
  else ""

/-- The switch dispatch on the lowercased type tag (source lines 118-170),
parameterized by the annotation clause it appends to every branch. -/
def mapFieldType (field : FieldDefinition) (annStr : String) : String :=
  if jsToLowerCase field.type = "int" ∨ jsToLowerCase field.type = "number" then
    "Schema.Number.pipe(Schema.int())" ++ annStr
  else if jsToLowerCase field.type = "float" then
    "Schema.Number" ++ annStr
  else if jsToLowerCase field.type = "bool" then
    "Schema.Boolean" ++ annStr
  else if jsToLowerCase field.type = "datetime" then
    "Schema.Date" ++ annStr
  else if jsToLowerCase field.type = "array" then
    "Schema.Array(Schema.String)" ++ annStr
  else if jsToLowerCase field.type = "array_float" then
    "Schema.Array(Schema.Number)" ++ annStr
  else if jsToLowerCase field.type = "array_record" then
    match field.reference with
    | some r => "Schema.Array(recordId(\"" ++ r.table ++ "\"))" ++ annStr
    | none =>
      "Schema.Array(Schema.String.pipe(Schema.pattern(" ++ arrayRecordNoRefPattern
        ++ ")))" ++ annStr
  else if jsToLowerCase field.type = "object" then
    "Schema.Record(Schema.String, Schema.Unknown)" ++ annStr
  else if jsToLowerCase field.type = "record" then
    match field.reference with
    | some r =>
      if field.name = "reply_to_message_id" ∧ r.table = "telegram_message" then
        "recordId(\"telegram_message\")" ++ annStr
      else
        "recordId(\"" ++ r.table ++ "\")" ++ annStr
    | none =>
      "Schema.String.pipe(Schema.pattern(" ++ recordNoRefPattern ++ "))" ++ annStr
  else if jsToLowerCase field.type = "references" then
    match field.reference with
    | some r => "Schema.Array(recordId(\"" ++ r.table ++ "\"))" ++ annStr
    | none => "Schema.Array(Schema.String)" ++ annStr
  else
    "Schema.String" ++ annStr

/-- One generated field line (source lines 72-177): the dispatched type with
its annotation clause, wrapped in `Schema.optional` when the field is
optional and its type is not datetime (lines 172-175). -/
def fieldLine (field : FieldDefinition) : String :=
  if jsToLowerCase field.type ≠ "datetime" ∧ field.optional = true then
    "  " ++ field.name ++ ": " ++
      ("Schema.optional(" ++ mapFieldType field (annotationsStr field) ++ ")")
  else
    "  " ++ field.name ++ ": " ++ mapFieldType field (annotationsStr field)

/-- The synthesized `id` field line (source lines 66-68). -/
def idFieldLine (name : String) : String :=
  "  id: recordId(\"" ++ name ++
    "\").annotations(\x7b\n    description: \"Unique identifier\"\n  \x7d)"

/-- The `fieldDefinitions` array of a table (source lines 59-178): a
synthesized `id` line when no declared field is named `id`, then one line per
declared field in declaration order. -/
def fieldDefinitions (table : TableDefinition) : List String :=
  (if table.fields.any (fun field => field.name == "id") then []
   else [idFieldLine table.name]) ++ table.fields.map fieldLine

/-- The optional table description comment (source lines 180-182). -/
def tableDescComment (table : TableDefinition) : String :=
  if jsTruthy table.description then
    "\n/**\n * " ++ escapeQuotesOnly (table.description.getD "") ++ "\n */"
  else ""

/-- One generated class (source lines 53-188): description comment, class
header keyed by the formatted class name, the joined field definitions, and
the closing braces, ending with a newline. -/
def tableClass (table : TableDefinition) : String :=
  tableDescComment table ++ "\nexport class " ++ formatClassName table.name ++
    " extends Schema.Class<" ++ formatClassName table.name ++ ">(\"" ++
    formatClassName table.name ++ "\")(\x7b\n" ++
    String.intercalate ",\n" (fieldDefinitions table) ++ "\n\x7d) \x7b\x7d\n"

/-- `generateEffectSchemas` (source lines 31-192): the preamble, a newline,
and every table class joined with newlines. -/
def generateEffectSchemas (tables : List TableDefinition) : String :=
  importsStr ++ "\n" ++ String.intercalate "\n" (tables.map tableClass)

/-- Calling the generator at the JavaScript boundary with a possibly-null
table list: `null.map` raises a TypeError, while for any actual list the body
is total and returns the generated text. -/
def generateEffectSchemasJS : Option (List TableDefinition) → Except String String
  | none => Except.error "TypeError: tables is null"
  | some tables => Except.ok (generateEffectSchemas tables)

/-! ### Helper lemmas -/

theorem hasInfixB_tail (pat : List Char) (c : Char) (rest : List Char)
    (h : hasInfixB pat (c :: rest) = false) : hasInfixB pat rest = false := by
  cases hp : pat.isPrefixOf (c :: rest) <;> cases hr : hasInfixB pat rest <;>
    simp_all [hasInfixB]

theorem bsq_not_head (c1 c2 : Char) (rest : List Char)
    (h : hasInfixB [bc, qc] (c1 :: c2 :: rest) = false) : ¬ (c1 = bc ∧ c2 = qc) := by
  rintro ⟨rfl, rfl⟩
  simp [hasInfixB, List.isPrefixOf] at h

theorem replaceBsQ_eq_self : ∀ d : List Char,
    hasInfixB [bc, qc] d = false → replaceBsQ d = d
  | [], _ => rfl
  | [_], _ => rfl
  | c1 :: c2 :: rest, h => by
      have hnp : ¬ (c1 = bc ∧ c2 = qc) := bsq_not_head c1 c2 rest h
      have htl : hasInfixB [bc, qc] (c2 :: rest) = false := hasInfixB_tail _ c1 _ h
      simp only [replaceBsQ, if_neg hnp]
      exact congrArg (c1 :: ·) (replaceBsQ_eq_self (c2 :: rest) htl)

theorem replaceBsQ_escQ : ∀ d : List Char,
    hasInfixB [bc, qc] d = false → replaceBsQ (escQ d) = d
  | [], _ => rfl
  | [c], _ => by
      by_cases hc : c = qc <;> simp [escQ, replaceBsQ, hc]
  | c1 :: c2 :: rest, h => by
      have htl : hasInfixB [bc, qc] (c2 :: rest) = false := hasInfixB_tail _ c1 _ h
      have htl2 : hasInfixB [bc, qc] rest = false := hasInfixB_tail _ c2 _ htl
      by_cases h1 : c1 = qc
      · subst h1
        have ih := replaceBsQ_escQ (c2 :: rest) htl
        have hbq : ¬ (bc = bc ∧ qc = qc) → False := fun hk => hk ⟨rfl, rfl⟩
        simp only [escQ, if_pos rfl]
        simp only [replaceBsQ, if_pos (And.intro rfl rfl)]
        exact congrArg (qc :: ·) ih
      · by_cases h2 : c2 = qc
        · subst h2
          have hc1bc : ¬ c1 = bc := fun hb => bsq_not_head c1 qc rest h ⟨hb, rfl⟩
          have ih := replaceBsQ_escQ rest htl2
          simp only [escQ, if_neg h1, if_pos rfl]
          simp only [replaceBsQ, if_neg (fun hk : c1 = bc ∧ bc = qc => hc1bc hk.1),
            if_pos (And.intro rfl rfl)]
          exact congrArg (fun l => c1 :: qc :: l) ih
        · have ih := replaceBsQ_escQ (c2 :: rest) htl
          simp only [escQ, if_neg h2] at ih
          simp only [escQ, if_neg h1, if_neg h2]
          simp only [replaceBsQ, if_neg (fun hk : c1 = bc ∧ c2 = qc => h2 hk.2)]
          exact congrArg (c1 :: ·) ih

theorem escQ_q (rest : List Char) : escQ (qc :: rest) = bc :: qc :: escQ rest := by
  simp [escQ]

theorem escQ_ne (c : Char) (rest : List Char) (hc : c ≠ qc) :
    escQ (c :: rest) = c :: escQ rest := by
  simp [escQ, hc]

theorem noUnescapedQuote_bs (c : Char) (rest : List Char) :
    noUnescapedQuote (bc :: c :: rest) = noUnescapedQuote rest := by
  simp [noUnescapedQuote]

theorem noUnescapedQuote_cons (c c2 : Char) (rest : List Char) (hb : c ≠ bc) :
    noUnescapedQuote (c :: c2 :: rest) = (c != qc && noUnescapedQuote (c2 :: rest)) := by
  simp [noUnescapedQuote, hb]

theorem escQ_noUnescaped : ∀ d : List Char,
    hasInfixB [bc, qc] d = false → noUnescapedQuote (escQ d) = true
  | [], _ => rfl
  | [c], _ => by
      by_cases hc : c = qc
      · subst hc; decide
      · rw [escQ_ne c [] hc]
        by_cases hb : c = bc <;> simp [noUnescapedQuote, hb, hc]
  | c1 :: c2 :: rest, h => by
      have htl : hasInfixB [bc, qc] (c2 :: rest) = false := hasInfixB_tail _ c1 _ h
      have htl2 : hasInfixB [bc, qc] rest = false := hasInfixB_tail _ c2 _ htl
      by_cases h1 : c1 = qc
      · subst h1
        have ih := escQ_noUnescaped (c2 :: rest) htl
        rw [escQ_q, noUnescapedQuote_bs]
        exact ih
      · by_cases hb : c1 = bc
        · subst hb
          have hc2 : ¬ c2 = qc := fun hq => bsq_not_head bc c2 rest h ⟨rfl, hq⟩
          have ih := escQ_noUnescaped rest htl2
          rw [escQ_ne bc _ h1, escQ_ne c2 _ hc2, noUnescapedQuote_bs]
          exact ih
        · have ih := escQ_noUnescaped (c2 :: rest) htl
          rw [escQ_ne c1 _ h1]
          cases hesc : escQ (c2 :: rest) with
          | nil => simp [noUnescapedQuote, hb, h1]
          | cons e erest =>
            rw [noUnescapedQuote_cons c1 e erest hb, ← hesc, ih]
            simp [h1]

/-! ### Claim theorems -/

/-- Claim C1: a table with no declared field named `id` gets a synthesized
leading `id` field bound to `recordId` of the name of the table itself with the fixed
description "Unique identifier"; a table that declares an `id` field gets no
synthetic field; in both cases the declared fields follow in declaration
order, and the emitted class is built from exactly these field definitions. -/
theorem id_synthesis (table : TableDefinition) :
    ((table.fields.any fun field => field.name == "id") = false →
      fieldDefinitions table =
        ("  id: recordId(\"" ++ table.name ++
          "\").annotations(\x7b\n    description: \"Unique identifier\"\n  \x7d)") ::
          table.fields.map fieldLine) ∧
    ((table.fields.any fun field => field.name == "id") = true →
      fieldDefinitions table = table.fields.map fieldLine) ∧
    tableClass table = tableDescComment table ++ "\nexport class " ++
      formatClassName table.name ++ " extends Schema.Class<" ++
      formatClassName table.name ++ ">(\"" ++ formatClassName table.name ++
      "\")(\x7b\n" ++ String.intercalate ",\n" (fieldDefinitions table) ++
      "\n\x7d) \x7b\x7d\n" := by
  refine ⟨fun h => ?_, fun h => ?_, rfl⟩
  · simp [fieldDefinitions, h, idFieldLine]
  · simp [fieldDefinitions, h]

theorem id_synthesis_witness :
    fieldDefinitions ⟨"user", none, [⟨"age", "int", false, none, none, none⟩]⟩ =
      ("  id: recordId(\"" ++ "user" ++
        "\").annotations(\x7b\n    description: \"Unique identifier\"\n  \x7d)") ::
        [⟨"age", "int", false, none, none, none⟩].map fieldLine ∧
    fieldDefinitions ⟨"pet", none, [⟨"id", "string", false, none, none, none⟩]⟩ =
      [⟨"id", "string", false, none, none, none⟩].map fieldLine :=
  ⟨(id_synthesis ⟨"user", none, [⟨"age", "int", false, none, none, none⟩]⟩).1 (by decide),
   (id_synthesis ⟨"pet", none, [⟨"id", "string", false, none, none, none⟩]⟩).2.1 (by decide)⟩

/-- Claim C2: an optional field whose lowercased type tag is not `datetime`
has its mapped type expression wrapped in `Schema.optional`; an optional
`datetime` field is not wrapped; a non-optional field is never wrapped. -/
theorem optional_wrapping (field : FieldDefinition) :
    (field.optional = true → jsToLowerCase field.type ≠ "datetime" →
      fieldLine field = "  " ++ field.name ++ ": " ++
        ("Schema.optional(" ++ mapFieldType field (annotationsStr field) ++ ")")) ∧
    (jsToLowerCase field.type = "datetime" →
      fieldLine field = "  " ++ field.name ++ ": " ++
        mapFieldType field (annotationsStr field)) ∧
    (field.optional = false →
      fieldLine field = "  " ++ field.name ++ ": " ++
        mapFieldType field (annotationsStr field)) := by
  refine ⟨fun hopt hne => ?_, fun hdt => ?_, fun hopt => ?_⟩
  · simp [fieldLine, hne, hopt]
  · simp [fieldLine, hdt]
  · simp [fieldLine, hopt]

theorem optional_wrapping_witness :
    fieldLine ⟨"age", "int", true, none, none, none⟩ =
      "  " ++ "age" ++ ": " ++
        ("Schema.optional(" ++ mapFieldType ⟨"age", "int", true, none, none, none⟩
          (annotationsStr ⟨"age", "int", true, none, none, none⟩) ++ ")") ∧
    fieldLine ⟨"at", "datetime", true, none, none, none⟩ =
      "  " ++ "at" ++ ": " ++ mapFieldType ⟨"at", "datetime", true, none, none, none⟩
        (annotationsStr ⟨"at", "datetime", true, none, none, none⟩) :=
  ⟨(optional_wrapping ⟨"age", "int", true, none, none, none⟩).1 rfl (by decide),
   (optional_wrapping ⟨"at", "datetime", true, none, none, none⟩).2.1 (by decide)⟩

/-- Claim C3: a field with a present non-empty default value gets, when the
value contains `::`, a single-quoted `surrealDefault` entry (and no `default`
entry) for datetime fields and a single-quoted `default` entry otherwise;
when the value contains no `::`, a `default` entry that is unquoted exactly
when the value already starts with a single or double quote, is literally
`true`/`false`, matches the signed-decimal numeric pattern, or starts with
`[` or the object-literal brace, and single-quoted otherwise. -/
theorem default_formatting (field : FieldDefinition) (v : String)
    (hv : field.defaultValue = some v) (hne : v ≠ "") :
    (jsIncludes v "::" = true → jsToLowerCase field.type = "datetime" →
      annotationsOf field = descEntries field ++ ["surrealDefault: \x27" ++ v ++ "\x27"]) ∧
    (jsIncludes v "::" = true → jsToLowerCase field.type ≠ "datetime" →
      annotationsOf field = descEntries field ++ ["default: \x27" ++ v ++ "\x27"]) ∧
    (jsIncludes v "::" = false →
      ((jsStartsWith v "\x27" = true ∨ jsStartsWith v "\"" = true ∨ v = "true" ∨
          v = "false" ∨ isNumericLiteral v = true ∨ jsStartsWith v "[" = true ∨
          jsStartsWith v "\x7b" = true) →
        annotationsOf field = descEntries field ++ ["default: " ++ v]) ∧
      (¬ (jsStartsWith v "\x27" = true ∨ jsStartsWith v "\"" = true ∨ v = "true" ∨
          v = "false" ∨ isNumericLiteral v = true ∨ jsStartsWith v "[" = true ∨
          jsStartsWith v "\x7b" = true) →
        annotationsOf field = descEntries field ++ ["default: \x27" ++ v ++ "\x27"])) := by
  have htr : jsTruthy (some v) = true := by simp [jsTruthy, hne]
  refine ⟨fun hin hdt => ?_, fun hin hdt => ?_,
    fun hin => ⟨fun hun => ?_, fun hq => ?_⟩⟩ <;> simp only [annotationsOf] <;> congr 1
  · simp [defaultEntries, hv, htr, hin, hdt]
  · simp [defaultEntries, hv, htr, hin, hdt]
  · have hC : ¬ (jsStartsWith v "\x27" = false ∧ jsStartsWith v "\"" = false ∧
        v ≠ "true" ∧ v ≠ "false" ∧ isNumericLiteral v = false ∧
        jsStartsWith v "[" = false ∧ jsStartsWith v "\x7b" = false) := by
      rcases hun with h | h | h | h | h | h | h <;> simp [h]
    simp [defaultEntries, hv, htr, hin, hC]
  · push_neg at hq
    obtain ⟨q1, q2, q3, q4, q5, q6, q7⟩ := hq
    simp only [ne_eq, Bool.not_eq_true] at q1 q2 q5 q6 q7
    simp [defaultEntries, hv, htr, hin, q1, q2, q3, q4, q5, q6, q7]

theorem default_formatting_witness :
    annotationsOf ⟨"at", "datetime", false, none, some "time::now()", none⟩ =
      descEntries ⟨"at", "datetime", false, none, some "time::now()", none⟩ ++
        ["surrealDefault: \x27" ++ "time::now()" ++ "\x27"] ∧
    annotationsOf ⟨"ok", "bool", false, none, some "true", none⟩ =
      descEntries ⟨"ok", "bool", false, none, some "true", none⟩ ++
        ["default: " ++ "true"] ∧
    annotationsOf ⟨"st", "string", false, none, some "now", none⟩ =
      descEntries ⟨"st", "string", false, none, some "now", none⟩ ++
        ["default: \x27" ++ "now" ++ "\x27"] :=
  ⟨(default_formatting ⟨"at", "datetime", false, none, some "time::now()", none⟩
      "time::now()" rfl (by decide)).1 (by decide) (by decide),
   ((default_formatting ⟨"ok", "bool", false, none, some "true", none⟩
      "true" rfl (by decide)).2.2 (by decide)).1 (by tauto),
   ((default_formatting ⟨"st", "string", false, none, some "now", none⟩
      "now" rfl (by decide)).2.2 (by decide)).2 (by decide)⟩

/-- Claim C4: the field type mapper is total (every branch returns an
expression ending in the annotation clause); every lowercased type tag
outside the fixed vocabulary maps to the plain `Schema.String` validator; a
`record` field without reference maps to the pattern-constrained string using
`recordNoRefPattern`; a `references` field without reference maps to an array
of plain strings; and the `record` no-reference pattern differs syntactically
from the colon pattern of the `array_record` no-reference fallback. -/
theorem mapper_total_and_fallbacks (field : FieldDefinition) (annStr : String) :
    (∃ e, mapFieldType field annStr = e ++ annStr) ∧
    (jsToLowerCase field.type ∉ (["int", "number", "float", "bool", "datetime",
        "array", "array_float", "array_record", "object", "record",
        "references"] : List String) →
      mapFieldType field annStr = "Schema.String" ++ annStr) ∧
    (jsToLowerCase field.type = "record" → field.reference = none →
      mapFieldType field annStr =
        "Schema.String.pipe(Schema.pattern(" ++ recordNoRefPattern ++ "))" ++ annStr) ∧
    (jsToLowerCase field.type = "references" → field.reference = none →
      mapFieldType field annStr = "Schema.Array(Schema.String)" ++ annStr) ∧
    recordNoRefPattern ≠ arrayRecordNoRefPattern := by
  refine ⟨?_, fun h => ?_, fun ht hr => ?_, fun ht hr => ?_, by decide⟩
  · by_cases hv : jsToLowerCase field.type ∈ (["int", "number", "float", "bool",
        "datetime", "array", "array_float", "array_record", "object", "record",
        "references"] : List String)
    · simp only [List.mem_cons, List.not_mem_nil, or_false] at hv
      rcases hv with h | h | h | h | h | h | h | h | h | h | h
      · exact ⟨"Schema.Number.pipe(Schema.int())", by simp [mapFieldType, h]⟩
      · exact ⟨"Schema.Number.pipe(Schema.int())", by simp [mapFieldType, h]⟩
      · exact ⟨"Schema.Number", by simp [mapFieldType, h]⟩
      · exact ⟨"Schema.Boolean", by simp [mapFieldType, h]⟩
      · exact ⟨"Schema.Date", by simp [mapFieldType, h]⟩
      · exact ⟨"Schema.Array(Schema.String)", by simp [mapFieldType, h]⟩
      · exact ⟨"Schema.Array(Schema.Number)", by simp [mapFieldType, h]⟩
      · rcases href : field.reference with _ | r
        · exact ⟨"Schema.Array(Schema.String.pipe(Schema.pattern(" ++
            arrayRecordNoRefPattern ++ ")))", by simp [mapFieldType, h, href]⟩
        · exact ⟨"Schema.Array(recordId(\"" ++ r.table ++ "\"))",
            by simp [mapFieldType, h, href]⟩
      · exact ⟨"Schema.Record(Schema.String, Schema.Unknown)", by simp [mapFieldType, h]⟩
      · rcases href : field.reference with _ | r
        · exact ⟨"Schema.String.pipe(Schema.pattern(" ++ recordNoRefPattern ++ "))",
            by simp [mapFieldType, h, href]⟩
        · by_cases hsp : field.name = "reply_to_message_id" ∧ r.table = "telegram_message"
          · exact ⟨"recordId(\"telegram_message\")", by simp [mapFieldType, h, href, hsp]⟩
          · exact ⟨"recordId(\"" ++ r.table ++ "\")", by simp [mapFieldType, h, href, hsp]⟩
      · rcases href : field.reference with _ | r
        · exact ⟨"Schema.Array(Schema.String)", by simp [mapFieldType, h, href]⟩
        · exact ⟨"Schema.Array(recordId(\"" ++ r.table ++ "\"))",
            by simp [mapFieldType, h, href]⟩
    · simp only [List.mem_cons, List.not_mem_nil, or_false, not_or] at hv
      obtain ⟨h1, h2, h3, h4, h5, h6, h7, h8, h9, h10, h11⟩ := hv
      exact ⟨"Schema.String",
        by simp [mapFieldType, h1, h2, h3, h4, h5, h6, h7, h8, h9, h10, h11]⟩
  · simp only [List.mem_cons, List.not_mem_nil, or_false, not_or] at h
    obtain ⟨h1, h2, h3, h4, h5, h6, h7, h8, h9, h10, h11⟩ := h
    simp [mapFieldType, h1, h2, h3, h4, h5, h6, h7, h8, h9, h10, h11]
  · simp [mapFieldType, ht, hr]
  · simp [mapFieldType, ht, hr]

theorem mapper_total_and_fallbacks_witness :
    mapFieldType ⟨"tag", "uuid", false, none, none, none⟩ "" =
      "Schema.String" ++ "" ∧
    mapFieldType ⟨"boss", "record", false, none, none, none⟩ "" =
      "Schema.String.pipe(Schema.pattern(" ++ recordNoRefPattern ++ "))" ++ "" ∧
    mapFieldType ⟨"links", "references", false, none, none, none⟩ "" =
      "Schema.Array(Schema.String)" ++ "" :=
  ⟨(mapper_total_and_fallbacks ⟨"tag", "uuid", false, none, none, none⟩ "").2.1
      (by decide),
   (mapper_total_and_fallbacks ⟨"boss", "record", false, none, none, none⟩ "").2.2.1
      (by decide) rfl,
   (mapper_total_and_fallbacks ⟨"links", "references", false, none, none, none⟩ "").2.2.2.1
      (by decide) rfl⟩

/-- Claim C5 counterexample: for the two-character description
backslash-then-quote, the emitted literal body parses back to a lone quote,
not to the original description, so the round-trip fails as stated. -/
theorem escaping_roundtrip_cex :
    parseSingleQuoted (escapeDescription (String.mk [bc, qc])) = String.mk [qc] ∧
    String.mk [qc] ≠ String.mk [bc, qc] := by
  constructor <;> decide

/-- Claim C5 (amended): for every description that does not contain a
backslash-quote sequence, the emitted description value has every single
quote escaped (string-literal lexing meets no bare quote) and parsing the
emitted literal back (un-escaping escaped quotes) yields the original
description. -/
theorem escaping_roundtrip (d : String) (h : hasInfixB [bc, qc] d.data = false) :
    noUnescapedQuote (escapeDescription d).data = true ∧
    parseSingleQuoted (escapeDescription d) = d := by
  constructor
  · show noUnescapedQuote (escQ (replaceBsQ d.data)) = true
    rw [replaceBsQ_eq_self d.data h]
    exact escQ_noUnescaped d.data h
  · show String.mk (replaceBsQ (escQ (replaceBsQ d.data))) = d
    rw [replaceBsQ_eq_self d.data h, replaceBsQ_escQ d.data h]

theorem escaping_roundtrip_witness :
    noUnescapedQuote (escapeDescription (String.mk [Char.ofNat 97, qc, Char.ofNat 98])).data
        = true ∧
    parseSingleQuoted (escapeDescription (String.mk [Char.ofNat 97, qc, Char.ofNat 98])) =
      String.mk [Char.ofNat 97, qc, Char.ofNat 98] :=
  escaping_roundtrip (String.mk [Char.ofNat 97, qc, Char.ofNat 98]) (by decide)

/-- Claim C6 counterexample: a table whose name is the empty string is not a
hard failure: the generator returns normally on it. -/
theorem empty_name_no_failure :
    generateEffectSchemasJS (some [⟨"", none, []⟩]) =
      Except.ok (generateEffectSchemas [⟨"", none, []⟩]) := rfl

/-- Claim C6 (amended): the generation function signals a hard failure
exactly when the table list is null/missing; for every actual table list —
including tables with empty names — it returns normally with the generated
text. -/
theorem failure_iff_null_list :
    generateEffectSchemasJS none = Except.error "TypeError: tables is null" ∧
    ∀ tables : List TableDefinition,
      generateEffectSchemasJS (some tables) = Except.ok (generateEffectSchemas tables) :=
  ⟨rfl, fun _ => rfl⟩

/-- Claim C7: the output document is the shared preamble once, a separating
newline, and one class per input table in input order joined with newlines
(each class itself ends with a newline, so consecutive classes are separated
by a blank line); each class is keyed by the capitalize-first-letter
formatting of the name of its table; no table is dropped; the empty list yields
just the preamble and the separating newline. -/
theorem document_structure (tables : List TableDefinition) :
    generateEffectSchemas tables =
      importsStr ++ "\n" ++ String.intercalate "\n" (tables.map tableClass) ∧
    (tables.map tableClass).length = tables.length ∧
    (∀ table ∈ tables, ∃ pre post, tableClass table =
        pre ++ ("export class " ++ formatClassName table.name ++
          " extends Schema.Class<" ++ formatClassName table.name ++ ">(\"" ++
          formatClassName table.name ++ "\")") ++ post ∧
        ∃ body, tableClass table = body ++ "\n") ∧
    generateEffectSchemas [] = importsStr ++ "\n" := by
  have e1 : ("\nexport class " : String) = "\n" ++ "export class " := by decide
  have e2 : ("\")(\x7b\n" : String) = "\")" ++ "(\x7b\n" := by decide
  have e3 : ("\n\x7d) \x7b\x7d\n" : String) = "\n\x7d) \x7b\x7d" ++ "\n" := by decide
  refine ⟨rfl, by simp, fun table _ => ?_, ?_⟩
  case refine_2 =>
    show importsStr ++ "\n" ++ String.intercalate "\n" [] = importsStr ++ "\n"
    rw [show String.intercalate "\n" ([] : List String) = "" from rfl,
      String.append_empty]
  refine ⟨tableDescComment table ++ "\n",
    "(\x7b\n" ++ String.intercalate ",\n" (fieldDefinitions table) ++
      "\n\x7d) \x7b\x7d\n", ?_,
    tableDescComment table ++ "\nexport class " ++ formatClassName table.name ++
      " extends Schema.Class<" ++ formatClassName table.name ++ ">(\"" ++
      formatClassName table.name ++ "\")(\x7b\n" ++
      String.intercalate ",\n" (fieldDefinitions table) ++ "\n\x7d) \x7b\x7d", ?_⟩
  · simp only [tableClass]
    rw [e1, e2]
    simp only [String.append_assoc]
  · simp only [tableClass]
    rw [e3]
    simp only [String.append_assoc]

theorem document_structure_witness :
    ∃ pre post, tableClass ⟨"user", none, []⟩ =
        pre ++ ("export class " ++ formatClassName "user" ++
          " extends Schema.Class<" ++ formatClassName "user" ++ ">(\"" ++
          formatClassName "user" ++ "\")") ++ post ∧
        ∃ body, tableClass ⟨"user", none, []⟩ = body ++ "\n" :=
  (document_structure [⟨"user", none, []⟩]).2.2.1 ⟨"user", none, []⟩ (by simp)

/-- Claim C8: the generation function is deterministic and pure — its result
depends on nothing but the input table list, so equal inputs give identical
output strings. -/
theorem generator_deterministic (ts1 ts2 : List TableDefinition) (h : ts1 = ts2) :
    generateEffectSchemas ts1 = generateEffectSchemas ts2 := by rw [h]

theorem generator_deterministic_witness :
    generateEffectSchemas [⟨"user", none, []⟩] =
      generateEffectSchemas [⟨"user", none, []⟩] :=
  generator_deterministic [⟨"user", none, []⟩] [⟨"user", none, []⟩] rfl

/-- Claim C9: every `record`-typed field with a reference maps to `recordId`
of the table name of the reference followed by the annotation clause; the
special-cased self-referential branch (field `reply_to_message_id`
referencing `telegram_message`) is output-equivalent to the general branch. -/
theorem record_reference_uniform (field : FieldDefinition) (r : Reference)
    (annStr : String) (htype : jsToLowerCase field.type = "record")
    (href : field.reference = some r) :
    mapFieldType field annStr = "recordId(\"" ++ r.table ++ "\")" ++ annStr := by
  by_cases hsp : field.name = "reply_to_message_id" ∧ r.table = "telegram_message"
  · obtain ⟨hn, ht⟩ := hsp
    have hlit : ("recordId(\"" ++ "telegram_message" ++ "\")" : String) =
        "recordId(\"telegram_message\")" := by decide
    rw [ht, hlit]
    simp [mapFieldType, htype, href, hn, ht]
  · simp [mapFieldType, htype, href, hsp]

theorem record_reference_uniform_witness :
    mapFieldType ⟨"reply_to_message_id", "record", false, none, none,
        some ⟨"telegram_message"⟩⟩ "" =
      "recordId(\"" ++ "telegram_message" ++ "\")" ++ "" :=
  record_reference_uniform
    ⟨"reply_to_message_id", "record", false, none, none, some ⟨"telegram_message"⟩⟩
    ⟨"telegram_message"⟩ "" (by decide) rfl

/-- Claim C10: a field whose description is the empty string gets no
description annotation entry (whatever its default value), and a field whose
default value is the empty string gets no default (or surrealDefault) entry
(whatever its description): each empty string is treated exactly as an absent
property, so a field with only empty-string metadata gets an empty annotation
clause. -/
theorem empty_metadata_ignored (field : FieldDefinition) :
    (field.description = some "" →
      descEntries field = [] /\
      annotationsOf field =
        annotationsOf ⟨field.name, field.type, field.optional, none,
          field.defaultValue, field.reference⟩) /\
    (field.defaultValue = some "" →
      defaultEntries field = [] /\
      annotationsOf field =
        annotationsOf ⟨field.name, field.type, field.optional,
          field.description, none, field.reference⟩) /\
    (field.description = some "" → field.defaultValue = some "" →
      annotationsOf field = [] /\ annotationsStr field = "") := by
  have hnone : jsTruthy none = false := rfl
  refine ⟨fun hd => ⟨?_, ?_⟩, fun hv => ⟨?_, ?_⟩, fun hd hv => ⟨?_, ?_⟩⟩
  · have h1 : jsTruthy field.description = false := by rw [hd]; rfl
    simp [descEntries, h1]
  · have h1 : jsTruthy field.description = false := by rw [hd]; rfl
    simp [annotationsOf, descEntries, defaultEntries, h1, hnone]
  · have h2 : jsTruthy field.defaultValue = false := by rw [hv]; rfl
    simp [defaultEntries, h2]
  · have h2 : jsTruthy field.defaultValue = false := by rw [hv]; rfl
    simp [annotationsOf, descEntries, defaultEntries, h2, hnone]
  · have h1 : jsTruthy field.description = false := by rw [hd]; rfl
    have h2 : jsTruthy field.defaultValue = false := by rw [hv]; rfl
    simp [annotationsOf, descEntries, defaultEntries, h1, h2]
  · have h1 : jsTruthy field.description = false := by rw [hd]; rfl
    have h2 : jsTruthy field.defaultValue = false := by rw [hv]; rfl
    simp [annotationsStr, annotationsOf, descEntries, defaultEntries, h1, h2]

theorem empty_metadata_ignored_witness :
    descEntries ⟨"note", "string", false, some "", some "5", none⟩ = [] /\
    defaultEntries ⟨"memo", "string", false, some "hi", some "", none⟩ = [] /\
    annotationsOf ⟨"tag", "string", false, some "", some "", none⟩ = [] /\
    annotationsStr ⟨"tag", "string", false, some "", some "", none⟩ = "" :=
  ⟨((empty_metadata_ignored ⟨"note", "string", false, some "", some "5", none⟩).1 rfl).1,
   ((empty_metadata_ignored ⟨"memo", "string", false, some "hi", some "", none⟩).2.1 rfl).1,
   ((empty_metadata_ignored ⟨"tag", "string", false, some "", some "", none⟩).2.2 rfl rfl).1,
   ((empty_metadata_ignored ⟨"tag", "string", false, some "", some "", none⟩).2.2 rfl rfl).2⟩

end SurqlGen
